import Mathlib

/-!
Verification development for the t1 ExEx chain-notification bridge
(`src/bin/reth/src/main.rs`).

The embedding models the notification-processing pipeline:
 - `decode_chain_into_rollup_events` (extraction of counter-contract events
   from a committed chain segment),
 - `notify_l1` (per-event L1 submission with fire-and-forget semantics),
 - `exex` (the notification loop), here `exexRun` over a finite stream.

Bytes are modelled as `List Nat`; addresses and 32-byte words are byte lists
compared structurally (byte-for-byte).  Transactions are opaque.  The ABI
decoder generated by the `sol!` macro is an external collaborator and is a
parameter of the extraction.  Environment-variable reads are recorded in an
explicit trace; configuration values themselves are modelled as an already
parsed `Env` record (a missing or malformed variable aborts the process via
`expect`/`unwrap`, outside the loop's error channel).
-/

/-- Raw bytes. -/
abbrev Bytes := List Nat

/-- A 20-byte account address, as its byte sequence. -/
abbrev Address := Bytes

/-- A 32-byte word (hash, state root), as its byte sequence. -/
abbrev B256 := Bytes

/-- A signed transaction, opaque for this development. -/
abbrev Tx := Nat

/-- A receipt log: emitting address, topics and data payload. -/
structure Log where
  address : Address
  topics : List B256
  data : Bytes
deriving DecidableEq

/-- A transaction receipt: its emitted logs, in emission order. -/
structure Receipt where
  logs : List Log
deriving DecidableEq

/-- A block header: number and state root (the fields the bridge reads). -/
structure BlockHeader where
  number : Nat
  state_root : B256
deriving DecidableEq

/-- A sealed block with its transaction body (`SealedBlockWithSenders`). -/
structure Block where
  header : BlockHeader
  hash : B256
  transactions : List Tx
deriving DecidableEq

/-- Modelled from the spec: a `ChainSegment` (reth `Chain`, not under `src/`)
exposes an iterator over (block, receipts-per-transaction) pairs in ascending
block-number order; receipts are stored per block as a list of optional
receipts indexed positionally by transaction. -/
structure Chain where
  blocksAndReceipts : List (Block × List (Option Receipt))
deriving DecidableEq

/-- Placeholder block used to totalise `Chain.tip` (a real segment is
non-empty, which theorems assume where it matters). -/
def defaultBlock : Block := ⟨⟨0, []⟩, [], []⟩

/-- Modelled from the spec: `Chain::tip` is the tip (last, highest-numbered)
block of the segment. -/
def Chain.tip (c : Chain) : Block :=
  (c.blocksAndReceipts.getLastD (defaultBlock, [])).1

/-- The domain events of the counter contract; the ABI has the single
`Incremented` event, whose payload we keep as opaque bytes. -/
inductive CounterContractEvents where
  | Incremented (payload : Bytes)
deriving DecidableEq

/-- The external ABI decoder (`CounterContractEvents::decode_raw_log`):
topics and data to a typed event, or failure. -/
abbrev Decoder := List B256 → Bytes → Option CounterContractEvents

/-- Stage 1 of `decode_chain_into_rollup_events`: for each block, zip its
transactions with the flattened (present-only) receipts —
`block.body.transactions.iter().zip(receipts.iter().flatten())`. -/
def chainTxReceipts (chain : Chain) : List (Block × Tx × Receipt) :=
  chain.blocksAndReceipts.flatMap (fun br =>
    ((br.1.transactions.zip (br.2.filterMap id)).map (fun p => (br.1, p.1, p.2))))

/-- Stage 2: keep only logs whose address equals the counter contract
address — `receipt.logs.iter().filter(|log| log.address == counter_contract_address)`. -/
def chainTargetLogs (counter_contract_address : Address) (chain : Chain) :
    List (Block × Tx × Log) :=
  (chainTxReceipts chain).flatMap (fun btr =>
    (btr.2.2.logs.filter (fun log => log.address == counter_contract_address)).map
      (fun log => (btr.1, btr.2.1, log)))

/-- Stage 3: decode each kept log, silently dropping decode failures —
`filter_map(.. decode_raw_log(..).ok() ..)`. -/
def decodeTargetLogs (decode : Decoder) (xs : List (Block × Tx × Log)) :
    List (Block × Tx × CounterContractEvents) :=
  xs.filterMap (fun btl =>
    (decode btl.2.2.topics btl.2.2.data).map (fun e => (btl.1, btl.2.1, e)))

/-- `decode_chain_into_rollup_events`: the three chained iterator stages.
The counter contract address is passed resolved; the function's single
read of `COUNTER_CONTRACT_ADDRESS` is recorded by `decodeChainTraced`. -/
def decode_chain_into_rollup_events (decode : Decoder)
    (counter_contract_address : Address) (chain : Chain) :
    List (Block × Tx × CounterContractEvents) :=
  decodeTargetLogs decode (chainTargetLogs counter_contract_address chain)

/-- Resolved process configuration: the four environment values, already
parsed (parse failures abort the process and are outside this model). -/
structure Env where
  counter_contract_address : Address
  l1_rpc_address : Nat
  state_root_contract_address : Address
  prefunded_secret : Nat
deriving DecidableEq

/-- `decode_chain_into_rollup_events` with its environment-read trace: the
function reads `COUNTER_CONTRACT_ADDRESS` exactly once per call. -/
def decodeChainTraced (decode : Decoder) (env : Env) (chain : Chain) :
    List String × List (Block × Tx × CounterContractEvents) :=
  (["COUNTER_CONTRACT_ADDRESS"],
   decode_chain_into_rollup_events decode env.counter_contract_address chain)

/-- A log line produced for one L1 submission: success with the transaction
id, or the logged (never escalated) failure. -/
inductive L1LogEntry where
  | success (txId : Nat)
  | failure (err : Nat)
deriving DecidableEq

/-- The observable output of one `notify_l1` call: environment reads in
order, the payload of each `update_state_root` submission in order, and the
log line of each submission. -/
structure NotifyOutput where
  envReads : List String
  attempts : List Bytes
  l1Logs : List L1LogEntry
deriving DecidableEq

/-- Outcome oracle for the external transport (`signed_call` awaited inside
`StateRootContract::update_state_root`): for each submission index within one
`notify_l1` call, a transaction id or a transport error. -/
abbrev L1Oracle := Nat → Except Nat Nat

/-- One iteration of `notify_l1`'s event loop.  The single `Incremented`
variant always matches; the iteration reads the three L1 configuration
variables, submits the tip state root once, and logs the transport outcome. -/
def notifyStep (root : Bytes) (outcome : Except Nat Nat)
    (ev : CounterContractEvents) : List String × Bytes × L1LogEntry :=
  match ev with
  | CounterContractEvents.Incremented _ =>
    (["L1_RPC_ADDRESS", "STATE_ROOT_CONTRACT_ADDRESS", "PREFUNDED_SECRET"],
     root,
     match outcome with
     | Except.ok id => L1LogEntry.success id
     | Except.error e => L1LogEntry.failure e)

/-- `notify_l1`: extract the events of the committed chain (one read of
`COUNTER_CONTRACT_ADDRESS`), then for each event submit the tip block
header's state root to L1 and log the outcome.  The function is total: a
failed submission is logged and the loop proceeds; no error is returned. -/
def notify_l1 (decode : Decoder) (env : Env) (outcome : L1Oracle)
    (chain : Chain) : NotifyOutput :=
  let traced := decodeChainTraced decode env chain
  let steps := traced.2.enum.map (fun ie =>
    notifyStep chain.tip.header.state_root (outcome ie.1) ie.2.2.2)
  { envReads := traced.1 ++ steps.flatMap (fun s => s.1)
    attempts := steps.map (fun s => s.2.1)
    l1Logs := steps.map (fun s => s.2.2) }

/-- The host's chain notifications (`ExExNotification`). -/
inductive ExExNotification where
  | ChainCommitted (new : Chain)
  | ChainReorged (old new : Chain)
  | ChainReverted (old : Chain)
deriving DecidableEq

/-- Modelled from the spec: `ExExNotification::committed_chain` (reth, not
under `src/`).  Per the spec only a committed notification carries a
committed segment usable for the acknowledgement; reorg and revert
notifications yield none. -/
def ExExNotification.committed_chain : ExExNotification → Option Chain
  | ExExNotification.ChainCommitted new => some new
  | ExExNotification.ChainReorged _ _ => none
  | ExExNotification.ChainReverted _ => none

/-- Whether a notification is a commit. -/
def ExExNotification.isCommitted : ExExNotification → Bool
  | ExExNotification.ChainCommitted _ => true
  | _ => false

/-- Modelled from the spec: `BlockNumHash` of a segment's tip — the (block
number, block hash) pair carried by the acknowledgement. -/
def tipNumHash (c : Chain) : Nat × Bytes :=
  (c.tip.header.number, c.tip.hash)

/-- The observable output of processing one notification in the loop body:
traces from `notify_l1` (empty for reorg/revert, which only log), and the
acknowledgement the loop will send, `committed_chain().map(tip num-hash)`. -/
structure ProcessOutput where
  envReads : List String
  attempts : List Bytes
  l1Logs : List L1LogEntry
  ack : Option (Nat × Bytes)
deriving DecidableEq

/-- One iteration of the `exex` loop body: match on the notification (only
`ChainCommitted` calls `notify_l1`), then emit `FinishedHeight` for the
committed chain's tip when there is one. -/
def processNotification (decode : Decoder) (env : Env) (outcome : L1Oracle)
    (n : ExExNotification) : ProcessOutput :=
  let l1 : NotifyOutput :=
    match n with
    | ExExNotification.ChainCommitted new => notify_l1 decode env outcome new
    | ExExNotification.ChainReorged _ _ => ⟨[], [], []⟩
    | ExExNotification.ChainReverted _ => ⟨[], [], []⟩
  { envReads := l1.envReads
    attempts := l1.attempts
    l1Logs := l1.l1Logs
    ack := n.committed_chain.map tipNumHash }

/-- The observable outcome of a whole `exex` run: acknowledgements
successfully sent, accumulated traces, and whether the loop ended without
error (`Ok(())` after stream exhaustion) or with the error of a failed
acknowledgement send. -/
structure RunOutput where
  acks : List (Nat × Bytes)
  envReads : List String
  attempts : List Bytes
  l1Logs : List L1LogEntry
  ok : Bool
deriving DecidableEq

/-- The `exex` notification loop over a finite stream.  `outcomes ni` is the
transport oracle for the `ni`-th notification; `ackOk ai` tells whether the
`ai`-th acknowledgement send (`ctx.events.send(..)`) succeeds — on failure
the `?` operator ends the loop with that error. -/
def exexRun (decode : Decoder) (env : Env) (outcomes : Nat → L1Oracle)
    (ackOk : Nat → Bool) :
    List ExExNotification → Nat → Nat → RunOutput
  | [], _, _ => ⟨[], [], [], [], true⟩
  | n :: rest, ni, ai =>
    let pr := processNotification decode env (outcomes ni) n
    match pr.ack with
    | some a =>
      if ackOk ai then
        let r := exexRun decode env outcomes ackOk rest (ni + 1) (ai + 1)
        ⟨a :: r.acks, pr.envReads ++ r.envReads, pr.attempts ++ r.attempts,
         pr.l1Logs ++ r.l1Logs, r.ok⟩
      else
        ⟨[], pr.envReads, pr.attempts, pr.l1Logs, false⟩
    | none =>
      let r := exexRun decode env outcomes ackOk rest (ni + 1) ai
      ⟨r.acks, pr.envReads ++ r.envReads, pr.attempts ++ r.attempts,
       pr.l1Logs ++ r.l1Logs, r.ok⟩

/-- The `exex` loop started on a fresh stream. -/
def exexMain (decode : Decoder) (env : Env) (outcomes : Nat → L1Oracle)
    (ackOk : Nat → Bool) (stream : List ExExNotification) : RunOutput :=
  exexRun decode env outcomes ackOk stream 0 0

/-- Number of notifications in a stream that carry a committed chain, i.e.
the number of acknowledgement sends a full run performs. -/
def commitCount (stream : List ExExNotification) : Nat :=
  stream.countP (fun n => n.committed_chain.isSome)

/-- The log line `notify_l1` writes for one transport outcome. -/
def l1LogOf (outcome : Except Nat Nat) : L1LogEntry :=
  match outcome with
  | Except.ok id => L1LogEntry.success id
  | Except.error e => L1LogEntry.failure e

/-- Number of qualifying (decoded) events of a committed chain. -/
def eventCount (decode : Decoder) (env : Env) (c : Chain) : Nat :=
  (decode_chain_into_rollup_events decode env.counter_contract_address c).length

/-- Events extracted from one receipt, in log-emission order. -/
def extractReceiptEvents (decode : Decoder) (a : Address) (b : Block) (t : Tx)
    (rc : Receipt) : List (Block × Tx × CounterContractEvents) :=
  (rc.logs.filter (fun log => log.address == a)).filterMap (fun log =>
    (decode log.topics log.data).map (fun e => (b, t, e)))

/-- Events extracted from one block, in transaction order (transactions
zipped with the flattened receipts, as in the code). -/
def extractBlockEvents (decode : Decoder) (a : Address)
    (br : Block × List (Option Receipt)) : List (Block × Tx × CounterContractEvents) :=
  (br.1.transactions.zip (br.2.filterMap id)).flatMap (fun p =>
    extractReceiptEvents decode a br.1 p.1 p.2)

/-- Definition following the spec's words (for comparison with
`chainTxReceipts`): pair each transaction with its positionally
corresponding receipt; a transaction whose receipt entry is absent is
skipped, all other transactions keep their own receipt. -/
def spec_pair_tx_receipts (chain : Chain) : List (Block × Tx × Receipt) :=
  chain.blocksAndReceipts.flatMap (fun br =>
    (br.1.transactions.zip br.2).filterMap (fun p =>
      p.2.map (fun rc => (br.1, p.1, rc))))

/-- The spec-side extraction built on the spec's positional pairing (stages
2 and 3 unchanged). -/
def spec_chainTargetLogs (counter_contract_address : Address) (chain : Chain) :
    List (Block × Tx × Log) :=
  (spec_pair_tx_receipts chain).flatMap (fun btr =>
    (btr.2.2.logs.filter (fun log => log.address == counter_contract_address)).map
      (fun log => (btr.1, btr.2.1, log)))

/-- The spec-side extraction end to end. -/
def spec_decode_chain_into_rollup_events (decode : Decoder)
    (counter_contract_address : Address) (chain : Chain) :
    List (Block × Tx × CounterContractEvents) :=
  decodeTargetLogs decode (spec_chainTargetLogs counter_contract_address chain)

/-- Concrete decoder fixture: every log decodes, carrying its data bytes. -/
def decodeW : Decoder := fun _ d => some (CounterContractEvents.Incremented d)

/-- Concrete environment fixture: counter contract at address byte 1. -/
def envW : Env := ⟨[1], 0, [2], 0⟩

/-- Concrete log fixture addressed to the counter contract. -/
def logW : Log := ⟨[1], [], [3]⟩

/-- Concrete receipt fixture with one matching log. -/
def rcW : Receipt := ⟨[logW]⟩

/-- Concrete single-transaction block fixture. -/
def blkW : Block := ⟨⟨5, [9]⟩, [7], [0]⟩

/-- Concrete one-block chain fixture. -/
def chainW : Chain := ⟨[(blkW, [some rcW])]⟩

/-- Transport oracle fixture: every submission succeeds. -/
def okOracle : L1Oracle := fun _ => Except.ok 0

/-- Decoder fixture on which every log fails to decode. -/
def noneDecoder : Decoder := fun _ _ => none

/-- Two-transaction block fixture for the mispairing counterexample. -/
def c3Block : Block := ⟨⟨5, [9]⟩, [7], [0, 1]⟩

/-- Chain fixture whose first receipt entry is absent: the code then pairs
transaction 0 with transaction 1's receipt. -/
def c3Chain : Chain := ⟨[(c3Block, [none, some rcW])]⟩

/-- Chain fixture yielding two qualifying events in one committed segment. -/
def c9Chain : Chain := ⟨[(c3Block, [some rcW, some rcW])]⟩

/-- Two-block ascending chain fixture for the ordering witness. -/
def c5Chain : Chain :=
  ⟨[(blkW, [some rcW]), (⟨⟨6, [8]⟩, [4], [0]⟩, [some rcW])]⟩

example :
    decode_chain_into_rollup_events
      (fun _ d => some (CounterContractEvents.Incremented d)) [1]
      ⟨[(⟨⟨5, [9]⟩, [7], [0, 1]⟩,
         [some ⟨[⟨[1], [], [3]⟩, ⟨[2], [], [4]⟩]⟩, some ⟨[⟨[1], [], [5]⟩]⟩])]⟩ =
      [(⟨⟨5, [9]⟩, [7], [0, 1]⟩, 0, CounterContractEvents.Incremented [3]),
       (⟨⟨5, [9]⟩, [7], [0, 1]⟩, 1, CounterContractEvents.Incremented [5])] := by
  decide

/-! ## Helper lemmas -/

/-- Congruence for `flatMap` under pointwise equality on members. -/
theorem flatMapCongr {α β : Type} {l : List α} {f g : α → List β}
    (h : ∀ a ∈ l, f a = g a) : l.flatMap f = l.flatMap g := by
  induction l with
  | nil => rfl
  | cons x xs ih =>
    simp only [List.flatMap_cons]
    rw [h x (by simp), ih (fun a ha => h a (by simp [ha]))]

/-- `filterMap` distributes over `flatMap`. -/
theorem filterMapFlatMap {α β γ : Type} (l : List α) (f : α → List β)
    (g : β → Option γ) :
    (l.flatMap f).filterMap g = l.flatMap (fun a => (f a).filterMap g) := by
  induction l with
  | nil => rfl
  | cons x xs ih => simp [List.flatMap_cons, List.filterMap_append, ih]

/-- Mapping a function of the index only over `enum` is mapping over the
range of positions. -/
theorem mapEnumFst {α β : Type} (g : Nat → β) (l : List α) :
    l.enum.map (fun ie => g ie.1) = (List.range l.length).map g := by
  rw [← List.enum_map_fst l, List.map_map]
  rfl

/-- Flattening `n` copies of a list, as produced by a per-event constant
read sequence. -/
theorem flatMapConst {α : Type} (l : List α) (t : List String) :
    l.flatMap (fun _ => t) = (List.replicate l.length t).flatten := by
  induction l with
  | nil => rfl
  | cons x xs ih => simp [List.flatMap_cons, List.replicate_succ, ih]

/-- Counting occurrences in the flattening of `n` copies of a list. -/
theorem countFlattenReplicate (n : Nat) (t : List String) (s : String) :
    ((List.replicate n t).flatten.count s) = n * t.count s := by
  induction n with
  | zero => simp
  | succ k ih =>
    simp [List.replicate_succ, List.count_append, ih, Nat.succ_mul, Nat.add_comm]

/-- `notifyStep` in closed form: the single event variant always matches. -/
theorem notifyStep_eq (root : Bytes) (oc : Except Nat Nat)
    (ev : CounterContractEvents) :
    notifyStep root oc ev =
      (["L1_RPC_ADDRESS", "STATE_ROOT_CONTRACT_ADDRESS", "PREFUNDED_SECRET"],
       root, l1LogOf oc) := by
  cases ev
  cases oc <;> rfl

/-- `notify_l1` in closed form: one read of the counter address, per event
three L1 configuration reads, one submission of the tip state root, one log
line reflecting the transport outcome. -/
theorem notify_l1_eq (decode : Decoder) (env : Env) (o : L1Oracle) (c : Chain) :
    notify_l1 decode env o c =
      ⟨"COUNTER_CONTRACT_ADDRESS" ::
          (List.replicate (eventCount decode env c)
            (["L1_RPC_ADDRESS", "STATE_ROOT_CONTRACT_ADDRESS", "PREFUNDED_SECRET"] : List String)).flatten,
        List.replicate (eventCount decode env c) c.tip.header.state_root,
        (List.range (eventCount decode env c)).map (fun i => l1LogOf (o i))⟩ := by
  have hsteps :
      (decode_chain_into_rollup_events decode env.counter_contract_address c).enum.map
        (fun ie => notifyStep c.tip.header.state_root (o ie.1) ie.2.2.2) =
      (decode_chain_into_rollup_events decode env.counter_contract_address c).enum.map
        (fun ie =>
          ((["L1_RPC_ADDRESS", "STATE_ROOT_CONTRACT_ADDRESS", "PREFUNDED_SECRET"] : List String),
           c.tip.header.state_root, l1LogOf (o ie.1))) :=
    List.map_congr_left (fun ie _ => notifyStep_eq _ _ _)
  simp only [notify_l1, decodeChainTraced]
  rw [hsteps]
  simp only [List.map_map, List.flatMap_map, Function.comp_def, NotifyOutput.mk.injEq]
  refine ⟨?_, ?_, ?_⟩
  · rw [flatMapConst]
    simp [eventCount, List.enum_length]
  · rw [List.map_const']
    simp [eventCount, List.enum_length]
  · rw [mapEnumFst (fun i => l1LogOf (o i))]
    simp [eventCount]

/-- The acknowledgement of one loop iteration is exactly the committed
chain's tip num-hash, independent of the transport oracle. -/
theorem processNotification_ack (decode : Decoder) (env : Env) (o : L1Oracle)
    (n : ExExNotification) :
    (processNotification decode env o n).ack =
      n.committed_chain.map tipNumHash := rfl

/-- A notification that is not a commit carries no committed chain. -/
theorem committed_chain_of_not_committed {n : ExExNotification}
    (h : n.isCommitted = false) : n.committed_chain = none := by
  cases n with
  | ChainCommitted c => simp [ExExNotification.isCommitted] at h
  | ChainReorged o n => rfl
  | ChainReverted o => rfl

/-- The loop's acknowledgements and termination status do not depend on the
L1 transport outcomes. -/
theorem exexRun_outcomes_indep (decode : Decoder) (env : Env)
    (outcomes outcomes' : Nat → L1Oracle) (ackOk : Nat → Bool) :
    ∀ (stream : List ExExNotification) (ni ai : Nat),
      (exexRun decode env outcomes ackOk stream ni ai).acks =
        (exexRun decode env outcomes' ackOk stream ni ai).acks ∧
      (exexRun decode env outcomes ackOk stream ni ai).ok =
        (exexRun decode env outcomes' ackOk stream ni ai).ok := by
  intro stream
  induction stream with
  | nil => intro ni ai; exact ⟨rfl, rfl⟩
  | cons n rest ih =>
    intro ni ai
    cases n with
    | ChainCommitted c =>
      cases hak : ackOk ai <;>
        simp [exexRun, processNotification, ExExNotification.committed_chain,
          hak, (ih (ni + 1) (ai + 1)).1, (ih (ni + 1) (ai + 1)).2]
    | ChainReorged old new =>
      simpa [exexRun, processNotification, ExExNotification.committed_chain]
        using ih (ni + 1) ai
    | ChainReverted old =>
      simpa [exexRun, processNotification, ExExNotification.committed_chain]
        using ih (ni + 1) ai

/-- A stream with no commits produces no acknowledgements and ends cleanly. -/
theorem exexRun_no_commits (decode : Decoder) (env : Env)
    (outcomes : Nat → L1Oracle) (ackOk : Nat → Bool) :
    ∀ (stream : List ExExNotification) (ni ai : Nat),
      (∀ n ∈ stream, n.isCommitted = false) →
      (exexRun decode env outcomes ackOk stream ni ai).acks = [] ∧
      (exexRun decode env outcomes ackOk stream ni ai).ok = true := by
  intro stream
  induction stream with
  | nil => intro ni ai _; exact ⟨rfl, rfl⟩
  | cons n rest ih =>
    intro ni ai h
    have hn : n.committed_chain = none :=
      committed_chain_of_not_committed (h n (by simp))
    have hrest := ih (ni + 1) ai (fun m hm => h m (by simp [hm]))
    simp [exexRun, processNotification_ack, hn, hrest.1, hrest.2]

/-- The loop ends without error exactly when every acknowledgement send it
reaches succeeds. -/
theorem exexRun_ok_iff (decode : Decoder) (env : Env)
    (outcomes : Nat → L1Oracle) (ackOk : Nat → Bool) :
    ∀ (stream : List ExExNotification) (ni ai : Nat),
      ((exexRun decode env outcomes ackOk stream ni ai).ok = true ↔
        ∀ i, i < commitCount stream → ackOk (ai + i) = true) := by
  intro stream
  induction stream with
  | nil =>
    intro ni ai
    simp [exexRun, commitCount]
  | cons n rest ih =>
    intro ni ai
    cases n with
    | ChainCommitted c =>
      have hcc : commitCount (ExExNotification.ChainCommitted c :: rest) =
          commitCount rest + 1 := by
        simp [commitCount, List.countP_cons, ExExNotification.committed_chain]
      cases hak : ackOk ai with
      | true =>
        rw [hcc]
        have hrec := ih (ni + 1) (ai + 1)
        constructor
        · intro hok i hi
          rcases Nat.eq_zero_or_pos i with h0 | hpos
          · simpa [h0] using hak
          · obtain ⟨j, rfl⟩ := Nat.exists_eq_add_of_lt hpos
            have hj : j < commitCount rest := by omega
            have := (hrec.mp (by
              simpa [exexRun, processNotification, ExExNotification.committed_chain,
                hak] using hok)) j hj
            simpa [Nat.add_comm, Nat.add_assoc, Nat.add_left_comm] using this
        · intro h
          have hall : ∀ i, i < commitCount rest → ackOk (ai + 1 + i) = true := by
            intro i hi
            have := h (i + 1) (by omega)
            have heq : ai + (i + 1) = ai + 1 + i := by omega
            rwa [heq] at this
          simp [exexRun, processNotification, ExExNotification.committed_chain,
            hak, hrec.mpr hall]
      | false =>
        rw [hcc]
        constructor
        · intro hok
          exact absurd hok (by
            simp [exexRun, processNotification, ExExNotification.committed_chain, hak])
        · intro h
          have := h 0 (by omega)
          simp [hak] at this
    | ChainReorged old new =>
      have hcc : commitCount (ExExNotification.ChainReorged old new :: rest) =
          commitCount rest := by
        simp [commitCount, List.countP_cons, ExExNotification.committed_chain]
      rw [hcc]
      simpa [exexRun, processNotification, ExExNotification.committed_chain]
        using ih (ni + 1) ai
    | ChainReverted old =>
      have hcc : commitCount (ExExNotification.ChainReverted old :: rest) =
          commitCount rest := by
        simp [commitCount, List.countP_cons, ExExNotification.committed_chain]
      rw [hcc]
      simpa [exexRun, processNotification, ExExNotification.committed_chain]
        using ih (ni + 1) ai

/-- On a clean run each commit contributed exactly one acknowledgement. -/
theorem exexRun_acks_length (decode : Decoder) (env : Env)
    (outcomes : Nat → L1Oracle) (ackOk : Nat → Bool) :
    ∀ (stream : List ExExNotification) (ni ai : Nat),
      (exexRun decode env outcomes ackOk stream ni ai).ok = true →
      (exexRun decode env outcomes ackOk stream ni ai).acks.length =
        commitCount stream := by
  intro stream
  induction stream with
  | nil => intro ni ai _; simp [exexRun, commitCount]
  | cons n rest ih =>
    intro ni ai hok
    cases n with
    | ChainCommitted c =>
      cases hak : ackOk ai with
      | true =>
        have hok' : (exexRun decode env outcomes ackOk rest (ni + 1) (ai + 1)).ok = true := by
          simpa [exexRun, processNotification, ExExNotification.committed_chain,
            hak] using hok
        simp [exexRun, processNotification, ExExNotification.committed_chain, hak,
          commitCount, List.countP_cons, ih (ni + 1) (ai + 1) hok']
      | false =>
        exact absurd hok (by
          simp [exexRun, processNotification, ExExNotification.committed_chain, hak])
    | ChainReorged old new =>
      have hok' : (exexRun decode env outcomes ackOk rest (ni + 1) ai).ok = true := by
        simpa [exexRun, processNotification, ExExNotification.committed_chain] using hok
      simp [exexRun, processNotification, ExExNotification.committed_chain,
        commitCount, List.countP_cons, ih (ni + 1) ai hok']
    | ChainReverted old =>
      have hok' : (exexRun decode env outcomes ackOk rest (ni + 1) ai).ok = true := by
        simpa [exexRun, processNotification, ExExNotification.committed_chain] using hok
      simp [exexRun, processNotification, ExExNotification.committed_chain,
        commitCount, List.countP_cons, ih (ni + 1) ai hok']

/-- When every receipt entry is present, zipping against the flattened
receipts coincides with positional pairing that skips absent receipts. -/
theorem zipFlattenAllSome (b : Block) :
    ∀ (rcs : List (Option Receipt)) (txs : List Tx),
      (∀ r ∈ rcs, r.isSome = true) →
      ((txs.zip (rcs.filterMap id)).map (fun p => (b, p.1, p.2)) :
          List (Block × Tx × Receipt)) =
        (txs.zip rcs).filterMap (fun p => p.2.map (fun rc => (b, p.1, rc))) := by
  intro rcs
  induction rcs with
  | nil => intro txs h; cases txs <;> rfl
  | cons r rest ih =>
    intro txs h
    cases r with
    | none => exact absurd (h none (by simp)) (by simp)
    | some rc =>
      cases txs with
      | nil => rfl
      | cons t ts =>
        simpa [List.filterMap_cons] using ih ts (fun a ha => h a (by simp [ha]))

/-- The extraction pipeline reassociated into its nested per-block,
per-transaction, per-log form. -/
theorem decode_chain_nested (decode : Decoder) (a : Address) (chain : Chain) :
    decode_chain_into_rollup_events decode a chain =
      chain.blocksAndReceipts.flatMap (extractBlockEvents decode a) := by
  simp only [decode_chain_into_rollup_events, decodeTargetLogs, chainTargetLogs,
    chainTxReceipts, extractBlockEvents, extractReceiptEvents,
    List.flatMap_assoc, filterMapFlatMap, List.flatMap_map, List.filterMap_map]
  rfl

/-- Pairwise relation on a `flatMap` from pairwise-related groups. -/
theorem pairwiseFlatMap {α β : Type} {R : β → β → Prop} :
    ∀ {l : List α} {f : α → List β},
      (∀ a ∈ l, ∀ x ∈ f a, ∀ y ∈ f a, R x y) →
      l.Pairwise (fun a b => ∀ x ∈ f a, ∀ y ∈ f b, R x y) →
      (l.flatMap f).Pairwise R := by
  intro l f
  induction l with
  | nil => intro _ _; simp
  | cons a l ih =>
    intro hin hpw
    rw [List.flatMap_cons, List.pairwise_append]
    rcases List.pairwise_cons.mp hpw with ⟨hrel, hpw'⟩
    refine ⟨List.pairwise_of_forall_mem_list (hin a (by simp)),
      ih (fun b hb => hin b (by simp [hb])) hpw', ?_⟩
    intro x hx y hy
    rcases List.mem_flatMap.mp hy with ⟨b, hb, hyb⟩
    exact hrel b hb x hx y hyb

/-- Every event extracted from a block's group carries that block. -/
theorem mem_extractBlockEvents {decode : Decoder} {a : Address}
    {br : Block × List (Option Receipt)} {x : Block × Tx × CounterContractEvents}
    (hx : x ∈ extractBlockEvents decode a br) : x.1 = br.1 := by
  unfold extractBlockEvents extractReceiptEvents at hx
  rcases List.mem_flatMap.mp hx with ⟨p, hp, hxe⟩
  rcases List.mem_filterMap.mp hxe with ⟨log, hlog, hsome⟩
  rcases Option.map_eq_some'.mp hsome with ⟨e, hd, he⟩
  rw [← he]

/-! ## Claim theorems -/

/-- C1: an acknowledgement (FinishedHeight) is emitted only for Committed
notifications; a Reorged or Reverted notification never causes one. -/
theorem c1_ack_only_for_committed (decode : Decoder) (env : Env)
    (outcomes : Nat → L1Oracle) (o : L1Oracle) (ackOk : Nat → Bool)
    (stream : List ExExNotification) (ni ai : Nat)
    (h : ∀ n ∈ stream, n.isCommitted = false) :
    (∀ old new,
      (processNotification decode env o (ExExNotification.ChainReorged old new)).ack = none) ∧
    (∀ old,
      (processNotification decode env o (ExExNotification.ChainReverted old)).ack = none) ∧
    (exexRun decode env outcomes ackOk stream ni ai).acks = [] ∧
    (exexRun decode env outcomes ackOk stream ni ai).ok = true :=
  ⟨fun _ _ => rfl, fun _ => rfl,
   (exexRun_no_commits decode env outcomes ackOk stream ni ai h).1,
   (exexRun_no_commits decode env outcomes ackOk stream ni ai h).2⟩

/-- Witness for C1 at a concrete reorg-and-revert stream. -/
theorem c1_ack_only_for_committed_witness :
    (∀ n ∈ [ExExNotification.ChainReorged chainW chainW,
            ExExNotification.ChainReverted chainW], n.isCommitted = false) ∧
    (exexRun decodeW envW (fun _ => okOracle) (fun _ => true)
        [ExExNotification.ChainReorged chainW chainW,
         ExExNotification.ChainReverted chainW] 0 0).acks = [] :=
  ⟨by decide,
   (c1_ack_only_for_committed decodeW envW (fun _ => okOracle) okOracle
      (fun _ => true)
      [ExExNotification.ChainReorged chainW chainW,
       ExExNotification.ChainReverted chainW]
      0 0 (by decide)).2.2.1⟩

/-- C2: a Committed notification with a non-empty segment emits exactly one
acknowledgement, for that segment's tip number and hash, unconditionally —
the same acknowledgement under any transport outcomes. -/
theorem c2_ack_exactly_tip_unconditional (decode : Decoder) (env : Env)
    (o o' : L1Oracle) (outcomes : Nat → L1Oracle) (c : Chain)
    (h : c.blocksAndReceipts ≠ []) :
    (processNotification decode env o (ExExNotification.ChainCommitted c)).ack
        = some (tipNumHash c) ∧
    (processNotification decode env o (ExExNotification.ChainCommitted c)).ack
        = (processNotification decode env o' (ExExNotification.ChainCommitted c)).ack ∧
    (exexMain decode env outcomes (fun _ => true)
        [ExExNotification.ChainCommitted c]).acks = [tipNumHash c] :=
  ⟨rfl, rfl, rfl⟩

/-- Witness for C2 at a concrete one-block committed chain. -/
theorem c2_ack_exactly_tip_unconditional_witness :
    chainW.blocksAndReceipts ≠ [] ∧
    (processNotification decodeW envW okOracle
        (ExExNotification.ChainCommitted chainW)).ack = some (tipNumHash chainW) :=
  ⟨by decide,
   (c2_ack_exactly_tip_unconditional decodeW envW okOracle okOracle
      (fun _ => okOracle) chainW (by decide)).1⟩

/-- C4: the address filter is exact byte-for-byte equality — every log that
reaches the decoder is addressed to the target contract, and a log whose
address differs is excluded regardless of its topics or data. -/
theorem c4_address_filter_exact (a : Address) (chain : Chain) :
    (∀ x ∈ chainTargetLogs a chain, x.2.2.address = a) ∧
    (∀ (b : Block) (t : Tx) (log : Log), log.address ≠ a →
      (b, t, log) ∉ chainTargetLogs a chain) := by
  have haddr : ∀ x ∈ chainTargetLogs a chain, x.2.2.address = a := by
    intro x hx
    unfold chainTargetLogs at hx
    rcases List.mem_flatMap.mp hx with ⟨btr, hbtr, hxm⟩
    rcases List.mem_map.mp hxm with ⟨log, hlog, hxeq⟩
    rw [← hxeq]
    exact eq_of_beq (List.mem_filter.mp hlog).2
  exact ⟨haddr, fun b t log hne hmem => hne (haddr (b, t, log) hmem)⟩

/-- Witness for C4 at a concrete foreign-addressed log. -/
theorem c4_address_filter_exact_witness :
    ((⟨[2], [], []⟩ : Log).address ≠ ([1] : Address)) ∧
    (blkW, (0 : Tx), (⟨[2], [], []⟩ : Log)) ∉ chainTargetLogs [1] chainW :=
  ⟨by decide,
   (c4_address_filter_exact [1] chainW).2 blkW 0 ⟨[2], [], []⟩ (by decide)⟩

/-- C6: a target-addressed log that fails to decode is silently discarded —
the result contains exactly the successfully decoded events, and removing an
undecodable log leaves the decoding of all remaining logs unchanged. -/
theorem c6_decode_errors_silently_discarded (decode : Decoder) (a : Address)
    (chain : Chain) :
    (∀ (b : Block) (t : Tx) (e : CounterContractEvents),
        ((b, t, e) ∈ decode_chain_into_rollup_events decode a chain ↔
          ∃ log : Log, (b, t, log) ∈ chainTargetLogs a chain ∧
            decode log.topics log.data = some e)) ∧
    (∀ (pre post : List (Block × Tx × Log)) (x : Block × Tx × Log),
        decode x.2.2.topics x.2.2.data = none →
        decodeTargetLogs decode (pre ++ x :: post) =
          decodeTargetLogs decode (pre ++ post)) := by
  constructor
  · intro b t e
    unfold decode_chain_into_rollup_events decodeTargetLogs
    rw [List.mem_filterMap]
    constructor
    · rintro ⟨btl, hmem, hsome⟩
      rcases Option.map_eq_some'.mp hsome with ⟨e', hd, heq⟩
      obtain ⟨b', t', log⟩ := btl
      simp only [Prod.mk.injEq] at heq
      obtain ⟨rfl, rfl, rfl⟩ := heq
      exact ⟨log, hmem, hd⟩
    · rintro ⟨log, hmem, hd⟩
      exact ⟨(b, t, log), hmem, by simp [hd]⟩
  · intro pre post x hx
    unfold decodeTargetLogs
    simp [List.filterMap_append, List.filterMap_cons, hx]

/-- Witness for C6: dropping a concrete undecodable log is invisible. -/
theorem c6_decode_errors_silently_discarded_witness :
    (noneDecoder logW.topics logW.data = none) ∧
    decodeTargetLogs noneDecoder ([] ++ (blkW, 0, logW) :: []) =
      decodeTargetLogs noneDecoder ([] ++ []) :=
  ⟨rfl,
   (c6_decode_errors_silently_discarded noneDecoder [1] chainW).2
      [] [] (blkW, 0, logW) rfl⟩

/-- C3 counterexample: with an absent receipt before a present one, the
code's zip-against-flattened-receipts pairing differs from positional
pairing-with-skip — transaction 0 (which has no receipt) is paired with
transaction 1's receipt instead of being skipped. -/
theorem c3_counterexample :
    decode_chain_into_rollup_events decodeW [1] c3Chain ≠
      spec_decode_chain_into_rollup_events decodeW [1] c3Chain := by
  decide

/-- C3 (amended): transactions are zipped in order with the subsequence of
present receipts; when every receipt entry is present this coincides with
positional pairing (skipping transactions beyond the receipt list), but an
absent receipt shifts the pairing of all later transactions. -/
theorem c3_zip_flatten_pairing (decode : Decoder) (a : Address) (chain : Chain)
    (h : ∀ br ∈ chain.blocksAndReceipts, ∀ r ∈ br.2, r.isSome = true) :
    chainTxReceipts chain = spec_pair_tx_receipts chain ∧
    decode_chain_into_rollup_events decode a chain =
      spec_decode_chain_into_rollup_events decode a chain := by
  have h1 : chainTxReceipts chain = spec_pair_tx_receipts chain := by
    unfold chainTxReceipts spec_pair_tx_receipts
    exact flatMapCongr (fun br hbr =>
      zipFlattenAllSome br.1 br.2 br.1.transactions (h br hbr))
  refine ⟨h1, ?_⟩
  unfold decode_chain_into_rollup_events spec_decode_chain_into_rollup_events
    chainTargetLogs spec_chainTargetLogs
  rw [h1]

/-- Witness for C3 (amended) at a chain whose receipts are all present. -/
theorem c3_zip_flatten_pairing_witness :
    (∀ br ∈ chainW.blocksAndReceipts, ∀ r ∈ br.2, r.isSome = true) ∧
    chainTxReceipts chainW = spec_pair_tx_receipts chainW :=
  ⟨by decide, (c3_zip_flatten_pairing decodeW [1] chainW (by decide)).1⟩

/-- C5: extraction preserves total order — under the segment invariant
(ascending block numbers) the extracted sequence is block-ordered, and it is
exactly the ordered concatenation of per-block, per-transaction, per-log
extractions. -/
theorem c5_order_preserved (decode : Decoder) (a : Address) (chain : Chain)
    (h : chain.blocksAndReceipts.Pairwise
        (fun p q => p.1.header.number < q.1.header.number)) :
    (decode_chain_into_rollup_events decode a chain).Pairwise
        (fun x y => x.1.header.number ≤ y.1.header.number) ∧
    decode_chain_into_rollup_events decode a chain =
      chain.blocksAndReceipts.flatMap (extractBlockEvents decode a) := by
  refine ⟨?_, decode_chain_nested decode a chain⟩
  rw [decode_chain_nested]
  apply pairwiseFlatMap
  · intro br hbr x hx y hy
    rw [mem_extractBlockEvents hx, mem_extractBlockEvents hy]
  · refine h.imp ?_
    intro p q hpq x hx y hy
    rw [mem_extractBlockEvents hx, mem_extractBlockEvents hy]
    exact Nat.le_of_lt hpq

/-- Witness for C5 at a concrete two-block ascending chain. -/
theorem c5_order_preserved_witness :
    (c5Chain.blocksAndReceipts.Pairwise
        (fun p q => p.1.header.number < q.1.header.number)) ∧
    (decode_chain_into_rollup_events decodeW [1] c5Chain).Pairwise
        (fun x y => x.1.header.number ≤ y.1.header.number) :=
  ⟨by decide, (c5_order_preserved decodeW [1] c5Chain (by decide)).1⟩

/-- C7: exactly one submission attempt per qualifying event; attempts do not
depend on transport outcomes (no retry), every outcome is logged, and the
loop's termination status and acknowledgements are independent of L1
failures. -/
theorem c7_fire_and_forget (decode : Decoder) (env : Env) (o o' : L1Oracle)
    (c : Chain) (outcomes outcomes' : Nat → L1Oracle) (ackOk : Nat → Bool)
    (stream : List ExExNotification) (ni ai : Nat) :
    (notify_l1 decode env o c).attempts.length = eventCount decode env c ∧
    (notify_l1 decode env o c).attempts = (notify_l1 decode env o' c).attempts ∧
    (notify_l1 decode env o c).l1Logs =
      (List.range (eventCount decode env c)).map (fun i => l1LogOf (o i)) ∧
    (exexRun decode env outcomes ackOk stream ni ai).ok =
      (exexRun decode env outcomes' ackOk stream ni ai).ok ∧
    (exexRun decode env outcomes ackOk stream ni ai).acks =
      (exexRun decode env outcomes' ackOk stream ni ai).acks := by
  refine ⟨?_, ?_, ?_,
    (exexRun_outcomes_indep decode env outcomes outcomes' ackOk stream ni ai).2,
    (exexRun_outcomes_indep decode env outcomes outcomes' ackOk stream ni ai).1⟩
  · rw [notify_l1_eq]
    simp
  · rw [notify_l1_eq, notify_l1_eq]
  · rw [notify_l1_eq]

/-- C8: the loop ends without error exactly when the stream is exhausted
with every acknowledgement send succeeding, ends with error exactly when an
acknowledgement send fails, and on a clean run sent exactly one
acknowledgement per commit. -/
theorem c8_termination (decode : Decoder) (env : Env)
    (outcomes : Nat → L1Oracle) (ackOk : Nat → Bool)
    (stream : List ExExNotification) :
    ((exexMain decode env outcomes ackOk stream).ok = true ↔
      ∀ i, i < commitCount stream → ackOk i = true) ∧
    ((exexMain decode env outcomes ackOk stream).ok = false ↔
      ∃ i, i < commitCount stream ∧ ackOk i = false) ∧
    ((exexMain decode env outcomes ackOk stream).ok = true →
      (exexMain decode env outcomes ackOk stream).acks.length = commitCount stream) := by
  simp only [exexMain]
  have h1 := exexRun_ok_iff decode env outcomes ackOk stream 0 0
  simp only [Nat.zero_add] at h1
  refine ⟨h1, ?_, exexRun_acks_length decode env outcomes ackOk stream 0 0⟩
  constructor
  · intro hfalse
    by_contra hex
    push_neg at hex
    have hall : ∀ i, i < commitCount stream → ackOk i = true := by
      intro i hi
      cases hb : ackOk i with
      | false => exact absurd hb (hex i hi)
      | true => rfl
    have htrue := h1.mpr hall
    rw [hfalse] at htrue
    exact Bool.false_ne_true htrue
  · rintro ⟨i, hi, hfail⟩
    cases hok : (exexRun decode env outcomes ackOk stream 0 0).ok with
    | false => rfl
    | true =>
      have := h1.mp hok i hi
      rw [hfail] at this
      exact absurd this Bool.false_ne_true

/-- Witness for C8: a clean single-commit run ends without error. -/
theorem c8_termination_witness :
    (exexMain decodeW envW (fun _ => okOracle) (fun _ => true)
        [ExExNotification.ChainCommitted chainW]).ok = true :=
  (c8_termination decodeW envW (fun _ => okOracle) (fun _ => true)
      [ExExNotification.ChainCommitted chainW]).1.mpr (fun _ _ => rfl)

/-- C9 counterexample: during one committed notification with two qualifying
events the L1 RPC address is read from the environment twice, so it is not
read at most once for the process lifetime. -/
theorem c9_counterexample :
    ¬ ((exexMain decodeW envW (fun _ => okOracle) (fun _ => true)
        [ExExNotification.ChainCommitted c9Chain]).envReads.count
          "L1_RPC_ADDRESS" ≤ 1) := by
  decide

/-- C9 (amended): configuration is re-read at each use — the target contract
address once per committed notification, the three L1 values once per
qualifying event, and nothing on reorg or revert notifications. -/
theorem c9_env_reads_per_use (decode : Decoder) (env : Env) (o : L1Oracle)
    (c old new : Chain) :
    ((processNotification decode env o (ExExNotification.ChainCommitted c)).envReads.count
        "COUNTER_CONTRACT_ADDRESS" = 1) ∧
    ((processNotification decode env o (ExExNotification.ChainCommitted c)).envReads.count
        "L1_RPC_ADDRESS" = eventCount decode env c) ∧
    ((processNotification decode env o (ExExNotification.ChainCommitted c)).envReads.count
        "STATE_ROOT_CONTRACT_ADDRESS" = eventCount decode env c) ∧
    ((processNotification decode env o (ExExNotification.ChainCommitted c)).envReads.count
        "PREFUNDED_SECRET" = eventCount decode env c) ∧
    (processNotification decode env o (ExExNotification.ChainReorged old new)).envReads = [] ∧
    (processNotification decode env o (ExExNotification.ChainReverted old)).envReads = [] := by
  have hn : (processNotification decode env o (ExExNotification.ChainCommitted c)).envReads
      = "COUNTER_CONTRACT_ADDRESS" ::
        (List.replicate (eventCount decode env c)
          (["L1_RPC_ADDRESS", "STATE_ROOT_CONTRACT_ADDRESS", "PREFUNDED_SECRET"] :
            List String)).flatten := by
    show (notify_l1 decode env o c).envReads = _
    rw [notify_l1_eq]
  refine ⟨?_, ?_, ?_, ?_, rfl, rfl⟩ <;>
    rw [hn, List.count_cons, countFlattenReplicate] <;>
    simp

/-- C10: every submission of a committed segment carries the identical
payload — the state root of the segment's tip block header — one submission
per qualifying event. -/
theorem c10_identical_tip_payloads (decode : Decoder) (env : Env)
    (o : L1Oracle) (c : Chain) :
    (notify_l1 decode env o c).attempts =
      List.replicate (eventCount decode env c) c.tip.header.state_root := by
  rw [notify_l1_eq]
